import Mathlib

/-!
# kvm_example: a minimal KVM host

A shallow embedding of `main.go`: the host opens `/dev/kvm`, checks the API
version, creates a VM with one page of guest memory holding a 12-byte real-mode
program, creates one vCPU, sets its registers, and drives it in a loop until
the guest halts, forwarding port-0x3f8 output to an `io.Writer`.

Conventions of the embedding

* `uintptr`, `uint64`, `C.__u64` are `Nat` values below `2^64`; Go `int` is `Int`
  (the conversion `int(x)` is `toInt`).
* Go `error` is `Option String` (`none` is `nil`).
* An `io.Writer` is the list of byte slices handed to its `Write` calls, oldest
  first.
* Everything the kernel answers is an input (`Env`); everything the host issues
  is recorded, in order, in a trace of `Op`s.
* The `for` loop of `run` takes a fuel bound on the number of resume calls.
-/

namespace KvmExample

/-! ## Go and C primitives used by the source -/

/-- Constants that `main.go` takes from `<linux/kvm.h>` through cgo; the header
is not part of the repository, so they are parameters of the embedding. -/
structure KvmHeader where
  /-- `C.KVM_EXIT_IO_OUT`, the direction tag of a port write. -/
  KVM_EXIT_IO_OUT : Nat
  /-- `C.sizeof_struct_kvm_run`. -/
  sizeof_struct_kvm_run : Nat
  deriving DecidableEq, Repr

/-- Go conversion `int(x)` of a `uintptr` on a 64-bit target (two's complement). -/
def toInt (x : Nat) : Int :=
  if x % 2 ^ 64 < 2 ^ 63 then ((x % 2 ^ 64 : Nat) : Int) else ((x % 2 ^ 64 : Nat) : Int) - 2 ^ 64

/-- `syscall.Syscall` on linux/amd64, as a function of the value the kernel
leaves in the result register: values above `0xfffffffffffff001` are negated
error numbers and are reported as `r1 = -1` with `err = -raw`; any other value
is returned as `r1` with `err = 0`.  The second result `r2` is dropped by
every caller in `main.go` and is not modelled.  Result: `(r1, err)`. -/
def Syscall (raw : Nat) : Nat × Nat :=
  let ax := raw % 2 ^ 64
  if ax ≤ 0xfffffffffffff001 then (ax, 0) else (2 ^ 64 - 1, 2 ^ 64 - ax)

/-- Go built-in `copy(dst, src)`: copies `min (len dst) (len src)` elements to
the front of `dst` and returns the new contents of `dst` with that count. -/
def goCopy (dst src : List Nat) : List Nat × Nat :=
  let n := min dst.length src.length
  (src.take n ++ dst.drop n, n)

/-- `utf8.MaxRune`. -/
def MaxRune : Nat := 0x10FFFF

/-- `utf8.RuneError`. -/
def RuneError : Nat := 0xFFFD

/-- Go conversion `rune(x)` of a `uint64`: the low 32 bits, kept here as the
unsigned bit pattern of the `int32` (negative exactly when `2^31 ≤` pattern). -/
def toRune (x : Nat) : Nat := x % 2 ^ 32

/-- Conversion `uint64(r)` of an `int32` given by its bit pattern: sign extension. -/
def runeToUint64 (r : Nat) : Nat :=
  if r < 2 ^ 31 then r else r + (2 ^ 64 - 2 ^ 32)

/-- `utf8.AppendRune(nil, r)` for a rune given by its 32-bit pattern `i`:
one to four bytes, with surrogates and out-of-range values encoded as
`RuneError`. -/
def appendRune (i : Nat) : List Nat :=
  if i ≤ 0x7F then [i % 256]
  else if i ≤ 0x7FF then [0xC0 + i / 64, 0x80 + i % 64]
  else if i > MaxRune ∨ (0xD800 ≤ i ∧ i ≤ 0xDFFF) then
    [0xE0 + RuneError / 4096, 0x80 + RuneError / 64 % 64, 0x80 + RuneError % 64]
  else if i ≤ 0xFFFF then [0xE0 + i / 4096, 0x80 + i / 64 % 64, 0x80 + i % 64]
  else [0xF0 + i / 262144, 0x80 + i / 4096 % 64, 0x80 + i / 64 % 64, 0x80 + i % 64]

/-- `fmt`'s `fmtC(c uint64)`, the `%c` verb: `r := rune(c)`, replaced by
`RuneError` when `c > utf8.MaxRune`, then UTF-8 encoded. -/
def fmtC (c : Nat) : List Nat :=
  let r := toRune c
  let r := if c > MaxRune then RuneError else r
  appendRune r

/-- The bytes of `[]byte(fmt.Sprintf("%c", rune(data)))` for a `uint64` data
word: `rune(data)` is an `int32`, which `fmt` widens to `uint64` and hands to
`fmtC`. -/
def sprintfC (data : Nat) : List Nat :=
  fmtC (runeToUint64 (toRune data))

/-! ## Data model of `main.go` -/

/-- `ExitReasonUknown` (sic), `iota = 0`. -/
def ExitReasonUknown : Nat := 0
/-- `ExitReasonException`. -/
def ExitReasonException : Nat := 1
/-- `ExitReasonIO`. -/
def ExitReasonIO : Nat := 2
/-- `ExitReasonHyperCall`. -/
def ExitReasonHyperCall : Nat := 3
/-- `ExitReasonDebug`. -/
def ExitReasonDebug : Nat := 4
/-- `ExitReasonHLT`. -/
def ExitReasonHLT : Nat := 5
/-- `ExitReasonMMIO`. -/
def ExitReasonMMIO : Nat := 6
/-- `ExitReasonInternalEerror` (sic), the 18th constant of the block. -/
def ExitReasonInternalEerror : Nat := 17

/-- `KVMExitIO`: port I/O exit info. -/
structure KVMExitIO where
  direction : Nat
  size : Nat
  port : Nat
  count : Nat
  /-- bytes from kvm_run start -/
  dataOffset : Nat
  deriving DecidableEq, Repr

/-- The writer handed to `run`: the byte slices of its `Write` calls, in order. -/
abbrev Writer := List (List Nat)

/-- All bytes a writer has received, in order. -/
def Writer.bytes (w : Writer) : List Nat := w.flatten

/-- `handlePio`: on an OUT to port 0x3f8, one `Write` of
`[]byte(fmt.Sprintf("%c", rune(*data)))`; otherwise nothing. -/
def handlePio (c : KvmHeader) (pio : KVMExitIO) (data : Nat) (com1Out : Writer) : Writer :=
  if pio.port = 0x3f8 ∧ pio.direction = c.KVM_EXIT_IO_OUT then
    com1Out ++ [sprintfC data]
  else
    com1Out

/-- The guest program embedded in `run`. -/
def code : List Nat :=
  [0xba, 0xf8, 0x03, -- mov $0x3f8, %dx
   0x00, 0xd8,       -- add %bl, %al
   0x04, 0x30,       -- add $'0', %al
   0xee,             -- out %al, (%dx)
   0xb0, 0x0a,       -- mov $'\n', %al
   0xee,             -- out %al, (%dx)
   0xf4]             -- hlt

/-- The fields of `struct kvm_sregs` that `run` touches. -/
structure SRegs where
  csBase : Nat
  csSelector : Nat
  deriving DecidableEq, Repr

/-- The fields of `struct kvm_regs` that `run` or the guest program touches. -/
structure Regs where
  rax : Nat
  rbx : Nat
  rdx : Nat
  rip : Nat
  rflags : Nat
  deriving DecidableEq, Repr

/-- The zero value of `var regs C.struct_kvm_regs`. -/
def Regs.zero : Regs := ⟨0, 0, 0, 0, 0⟩

/-- The fields of `struct kvm_userspace_memory_region` other than the host
address; the buffer it points to is carried next to it. -/
structure MemoryRegion where
  slot : Nat
  guest_phys_addr : Nat
  memory_size : Nat
  deriving DecidableEq, Repr

/-- What the kernel has been told about the vCPU when the loop starts. -/
structure VCPUSetup where
  mem : List Nat
  region : MemoryRegion
  sregs : SRegs
  regs : Regs
  deriving DecidableEq, Repr

/-- The part of the mapped `struct kvm_run` the loop reads after a resume:
`exit_reason`, the union `anon0` overlaid as `KVMExitIO`, and the `uint64`
readable at a byte offset from the start of the mapping. -/
structure KvmRun where
  exit_reason : Nat
  io : KVMExitIO
  load64 : Nat → Nat

/-- One answer of the kernel to `ioctl(vcpu, KVM_RUN)`: the value in the
result register and the contents of the run structure afterwards. -/
structure ResumeResult where
  raw : Nat
  run : KvmRun

/-- Everything the outside world answers to the host.  Fields named after an
ioctl hold the value the kernel leaves in the result register. -/
structure Env where
  /-- `syscall.Open("/dev/kvm", ...)`: an errno or the descriptor. -/
  openKvm : Except Nat Int
  apiVersion : Nat
  createVM : Nat
  /-- errno of the anonymous `syscall.Mmap`, `none` when it succeeds. -/
  mmapMem : Option Nat
  setUserMemoryRegion : Nat
  createVCPU : Nat
  vcpuMMapSize : Nat
  /-- whether `syscall.Mmap` on the vCPU descriptor returns a non-nil slice. -/
  mmapRun : Bool
  getSRegs : Nat
  /-- the segment registers `KVM_GET_SREGS` stores on success. -/
  kernelSRegs : SRegs
  setSRegs : Nat
  setRegs : Nat
  /-- the result of the `i`-th resume call (from 0) for a vCPU set up as given. -/
  resume : VCPUSetup → Nat → ResumeResult

/-- Operations the host issues, in the order of the trace. -/
inductive Op where
  | openKvm
  | getApiVersion (kvm : Int)
  | createVM (kvm : Int)
  | mmap (fd : Int) (length : Int)
  | setUserMemoryRegion (vm : Int) (region : MemoryRegion)
  | createVCPU (vm : Int)
  | getVCPUMMapSize (kvm : Int)
  | getSRegs (vcpu : Int)
  | setSRegs (vcpu : Int) (sregs : SRegs)
  | setRegs (vcpu : Int) (regs : Regs)
  | lockOSThread
  | unlockOSThread
  | runVCPU (vcpu : Int)
  | handlePio (exit : KVMExitIO) (data : Nat)
  | println (msg : String)
  | close (fd : Int)
  deriving DecidableEq, Repr

/-- The value handed to `panic`. -/
inductive PanicValue where
  /-- `panic(err)` with the errno of `syscall.Open` or `syscall.Mmap`. -/
  | errno (e : Nat)
  /-- `panic(err)` with an `error`; `none` is `panic(nil)`. -/
  | error (err : Option String)
  /-- `panic("...")`. -/
  | str (msg : String)
  deriving DecidableEq, Repr

/-- How an observation of `run` ends. -/
inductive Outcome where
  | returned
  | panicked (v : PanicValue)
  /-- the loop was still resuming the vCPU when the fuel ran out. -/
  | running
  deriving DecidableEq, Repr

/-- Host-side state threaded through `run`. -/
structure Host where
  trace : List Op
  com1Out : Writer
  deriving DecidableEq, Repr

/-- Append an operation to the trace. -/
def Host.log (h : Host) (op : Op) : Host := { h with trace := h.trace ++ [op] }

/-- An observation of `run`. -/
structure Result where
  outcome : Outcome
  trace : List Op
  com1Out : Writer
  deriving DecidableEq, Repr

/-- A `panic(v)` in host state `h`. -/
def Host.panic (h : Host) (v : PanicValue) : Result := ⟨.panicked v, h.trace, h.com1Out⟩

/-- A deferred call: it runs when the function returns or panics, not while
the loop is still running. -/
def Result.deferred (r : Result) (op : Op) : Result :=
  match r.outcome with
  | .running => r
  | _ => { r with trace := r.trace ++ [op] }

/-! ## The ioctl wrappers -/

/-- `runVCPU`, as a function of the `(ret, e)` its `Syscall` returned. -/
def runVCPU (sys : Nat × Nat) : Int × Option String :=
  if sys.2 ≠ 0 then (-1, some "failed to run cpu") else (toInt sys.1, none)

/-- `getVCPUSRegs`. -/
def getVCPUSRegs (sys : Nat × Nat) : Option String :=
  if sys.2 ≠ 0 then some ("failed to get sregs: " ++ toString sys.2) else none

/-- `setVCPUSRegs`. -/
def setVCPUSRegs (sys : Nat × Nat) : Option String :=
  if sys.2 ≠ 0 then some ("failed to set sregs: " ++ toString sys.2) else none

/-- `setVCPURegs`. -/
def setVCPURegs (sys : Nat × Nat) : Option String :=
  if sys.2 ≠ 0 then some "failed to set vcpu regs" else none

/-- `getVCPUMMapSize`. -/
def getVCPUMMapSize (sys : Nat × Nat) : Int × Option String :=
  if sys.2 ≠ 0 then (0, some "failed to get MMap size") else (toInt sys.1, none)

/-- `createVM`. -/
def createVM (sys : Nat × Nat) : Int × Option String :=
  if sys.2 ≠ 0 then (0, some "failed to create VM") else (toInt sys.1, none)

/-- `createVCPU`. -/
def createVCPU (sys : Nat × Nat) : Int × Option String :=
  if sys.2 ≠ 0 then (0, some "failed to create VCPU") else (toInt sys.1, none)

/-- `validateVersion`, as a function of the `(version, e)` its `Syscall` returned. -/
def validateVersion (sys : Nat × Nat) : Option String :=
  if sys.2 ≠ 0 then some "Failed to get KVM version"
  else if sys.1 ≠ 12 then some "Incompatible KVM version"
  else none

/-- The load step of `run`: `if n := copy(mem, code); n == 0 { panic(...) }`.
`none` is the panic; otherwise the contents of `mem` after the copy. -/
def loadStep (mem code : List Nat) : Option (List Nat) :=
  let r := goCopy mem code
  if r.2 = 0 then none else some r.1

/-! ## The execution loop -/

/-- The `for` loop of `run`; `i` counts the resume calls made so far and
`fuel` bounds those still allowed. -/
def execLoop (c : KvmHeader) (resume : Nat → ResumeResult) (vcpu : Int) :
    Nat → Nat → Host → Result
  | 0, _, h => ⟨.running, h.trace, h.com1Out⟩
  | fuel + 1, i, h =>
    let h := h.log (.runVCPU vcpu)
    let r := runVCPU (Syscall (resume i).raw)
    if r.2 ≠ none ∨ r.1 = -1 then h.panic (.error r.2)
    else
      let run := (resume i).run
      if run.exit_reason = ExitReasonHLT then
        ⟨.returned, h.trace ++ [.println "exit: HLT"], h.com1Out⟩
      else if run.exit_reason = ExitReasonIO then
        let exit := run.io
        let data := run.load64 exit.dataOffset
        execLoop c resume vcpu fuel (i + 1)
          ⟨h.trace ++ [.handlePio exit data], handlePio c exit data h.com1Out⟩
      else
        execLoop c resume vcpu fuel (i + 1) h

/-! ## `run` -/

/-- The part of `run` after `defer syscall.Close(vm)`, with the two operand
registers as parameters (`run` passes 2 and 2). -/
def runVM (rax rbx : Nat) (c : KvmHeader) (env : Env) (kvm vm : Int) (fuel : Nat)
    (h : Host) : Result :=
  let memsize : Nat := 0x1000
  let h := h.log (.mmap (-1) memsize)
  match env.mmapMem with
  | some e => h.panic (.errno e)
  | none =>
    match loadStep (List.replicate memsize 0) code with
    | none => h.panic (.str "failed to copy code to RAM")
    | some mem =>
      let region : MemoryRegion := ⟨0, 0x1000, memsize⟩
      let h := h.log (.setUserMemoryRegion vm region)
      if (Syscall env.setUserMemoryRegion).2 ≠ 0 then h.panic (.str "failed to set mem region")
      else
        let h := h.log (.createVCPU vm)
        match createVCPU (Syscall env.createVCPU) with
        | (_, some err) => h.panic (.error (some err))
        | (vcpu, none) =>
          let h := h.log (.getVCPUMMapSize kvm)
          match getVCPUMMapSize (Syscall env.vcpuMMapSize) with
          | (_, some err) => h.panic (.error (some err))
          | (mmapSize, none) =>
            if mmapSize < (c.sizeof_struct_kvm_run : Int) then
              h.panic (.str "MMap unexpectedly small")
            else
              let h := h.log (.mmap vcpu mmapSize)
              if env.mmapRun = false then h.panic (.str "failed to get run")
              else
                let h := h.log (.getSRegs vcpu)
                match getVCPUSRegs (Syscall env.getSRegs) with
                | some err => h.panic (.error (some err))
                | none =>
                  let sregs : SRegs := { env.kernelSRegs with csBase := 0, csSelector := 0 }
                  let h := h.log (.setSRegs vcpu sregs)
                  match setVCPUSRegs (Syscall env.setSRegs) with
                  | some err => h.panic (.error (some err))
                  | none =>
                    let regs : Regs :=
                      { Regs.zero with rip := 0x1000, rax := rax, rbx := rbx, rflags := 0x2 }
                    let h := h.log (.setRegs vcpu regs)
                    match setVCPURegs (Syscall env.setRegs) with
                    | some err => h.panic (.error (some err))
                    | none =>
                      let h := h.log .lockOSThread
                      (execLoop c (env.resume ⟨mem, region, sregs, regs⟩) vcpu fuel 0 h).deferred
                        .unlockOSThread

/-- The part of `run` after `defer syscall.Close(kvm)`. -/
def runKvm (rax rbx : Nat) (c : KvmHeader) (env : Env) (kvm : Int) (fuel : Nat)
    (h : Host) : Result :=
  let h := h.log (.getApiVersion kvm)
  match validateVersion (Syscall env.apiVersion) with
  | some err => h.panic (.error (some err))
  | none =>
    let h := h.log (.createVM kvm)
    match createVM (Syscall env.createVM) with
    | (_, some err) => h.panic (.error (some err))
    | (vm, none) => (runVM rax rbx c env kvm vm fuel h).deferred (.close vm)

/-- The body of `run` with the two operand registers as parameters. -/
def runWith (rax rbx : Nat) (c : KvmHeader) (env : Env) (fuel : Nat) (com1Out : Writer) :
    Result :=
  let h : Host := ⟨[.openKvm], com1Out⟩
  match env.openKvm with
  | .error e => h.panic (.errno e)
  | .ok kvm => (runKvm rax rbx c env kvm fuel h).deferred (.close kvm)

/-- `run(com1Out)`: `regs.rax = 2`, `regs.rbx = 2`. -/
def run (c : KvmHeader) (env : Env) (fuel : Nat) (com1Out : Writer) : Result :=
  runWith 2 2 c env fuel com1Out

/-! ## Trace properties -/

/-- Number of resume calls in a trace. -/
def resumeCount : List Op → Nat
  | [] => 0
  | .runVCPU _ :: t => resumeCount t + 1
  | _ :: t => resumeCount t

/-- Operations on the vCPU: its creation, the mapping of its run structure
(the `Mmap` on its descriptor; the anonymous one uses descriptor -1), the
segment-register get and set, the register set, and the resume. -/
def Op.onVCPU : Op → Bool
  | .createVCPU _ => true
  | .mmap fd _ => decide (fd ≠ -1)
  | .getSRegs _ => true
  | .setSRegs _ _ => true
  | .setRegs _ _ => true
  | .runVCPU _ => true
  | _ => false

/-- Resume calls only. -/
def Op.isResume : Op → Bool
  | .runVCPU _ => true
  | _ => false

/-- Scan a trace with the pinned flag: `LockOSThread` sets it,
`UnlockOSThread` clears it, and every operation selected by `p` must be
issued while it is set. -/
def pinnedFrom (p : Op → Bool) : Bool → List Op → Bool
  | _, [] => true
  | _, .lockOSThread :: t => pinnedFrom p true t
  | _, .unlockOSThread :: t => pinnedFrom p false t
  | locked, op :: t => (!p op || locked) && pinnedFrom p locked t

/-- Every operation selected by `p` lies after a `LockOSThread` and before
the matching `UnlockOSThread`; the host starts unpinned. -/
def pinned (p : Op → Bool) (trace : List Op) : Bool := pinnedFrom p false trace

/-! ## A model of the guest CPU for the instructions of `code` -/

/-- Registers of the guest that the program uses; `ip` is the guest-physical
address of the next instruction. -/
structure Guest where
  rax : Nat
  rbx : Nat
  rdx : Nat
  ip : Nat
  deriving DecidableEq, Repr

/-- Why the guest left guest mode. -/
inductive GuestExit where
  /-- `out %al, (%dx)`: port and byte. -/
  | out (port : Nat) (al : Nat)
  | hlt
  /-- an instruction outside the modelled subset or outside guest memory. -/
  | fault
  deriving DecidableEq, Repr

/-- Byte of guest-physical memory at `addr`, if the registered region covers it. -/
def fetch (s : VCPUSetup) (addr : Nat) : Option Nat :=
  if s.region.guest_phys_addr ≤ addr ∧ addr < s.region.guest_phys_addr + s.region.memory_size then
    s.mem.get? (addr - s.region.guest_phys_addr)
  else none

/-- Replace the low byte of a register. -/
def setLow8 (r v : Nat) : Nat := r / 256 * 256 + v % 256

/-- Replace the low 16 bits of a register. -/
def setLow16 (r v : Nat) : Nat := r / 65536 * 65536 + v % 65536

/-- One instruction of the 16-bit real-mode subset used by `code`:
`ba iw` mov imm16 to dx, `00 d8` add bl to al, `04 ib` add imm8 to al,
`ee` out al to port dx, `b0 ib` mov imm8 to al, `f4` hlt. -/
def guestStep (s : VCPUSetup) (g : Guest) : Guest × Option GuestExit :=
  match fetch s g.ip with
  | none => (g, some .fault)
  | some op =>
    if op = 0xba then
      match fetch s (g.ip + 1), fetch s (g.ip + 2) with
      | some lo, some hi =>
        ({ g with rdx := setLow16 g.rdx (hi * 256 + lo), ip := g.ip + 3 }, none)
      | _, _ => (g, some .fault)
    else if op = 0x00 then
      match fetch s (g.ip + 1) with
      | some modrm =>
        if modrm = 0xd8 then
          ({ g with rax := setLow8 g.rax (g.rax % 256 + g.rbx % 256), ip := g.ip + 2 }, none)
        else (g, some .fault)
      | none => (g, some .fault)
    else if op = 0x04 then
      match fetch s (g.ip + 1) with
      | some ib => ({ g with rax := setLow8 g.rax (g.rax % 256 + ib), ip := g.ip + 2 }, none)
      | none => (g, some .fault)
    else if op = 0xee then
      ({ g with ip := g.ip + 1 }, some (.out (g.rdx % 65536) (g.rax % 256)))
    else if op = 0xb0 then
      match fetch s (g.ip + 1) with
      | some ib => ({ g with rax := setLow8 g.rax ib, ip := g.ip + 2 }, none)
      | none => (g, some .fault)
    else if op = 0xf4 then
      ({ g with ip := g.ip + 1 }, some .hlt)
    else (g, some .fault)

/-- Run the guest until it leaves guest mode; every instruction of the subset
moves `ip` forward, so a bound of one step per byte of memory is enough. -/
def guestRun (s : VCPUSetup) : Nat → Guest → Guest × GuestExit
  | 0, g => (g, .fault)
  | n + 1, g =>
    match guestStep s g with
    | (g1, some e) => (g1, e)
    | (g1, none) => guestRun s n g1

/-- The guest as the registers and segment base set by the host leave it. -/
def guestInit (s : VCPUSetup) : Guest :=
  ⟨s.regs.rax, s.regs.rbx, s.regs.rdx, s.sregs.csBase + s.regs.rip⟩

/-- Guest state and exit after the `i`-th resume call (from 0). -/
def guestAt (s : VCPUSetup) : Nat → Guest × GuestExit
  | 0 => guestRun s s.mem.length (guestInit s)
  | i + 1 => guestRun s s.mem.length (guestAt s i).1

/-- Offset of the port-I/O data page in the run mapping. -/
def pioDataOffset : Nat := 0x1000

/-- The run structure KVM presents for a guest exit: a one-byte OUT puts the
byte at the data offset of an otherwise zero page. -/
def exitToRun (c : KvmHeader) : GuestExit → KvmRun
  | .out port al =>
    ⟨ ExitReasonIO, ⟨c.KVM_EXIT_IO_OUT, 1, port, 1, pioDataOffset⟩,
      fun off => if off = pioDataOffset then al else 0⟩
  | .hlt => ⟨ExitReasonHLT, ⟨0, 0, 0, 0, 0⟩, fun _ => 0⟩
  | .fault => ⟨ExitReasonInternalEerror, ⟨0, 0, 0, 0, 0⟩, fun _ => 0⟩

/-- The resume results of a working KVM running the guest model. -/
def kvmGuest (c : KvmHeader) (s : VCPUSetup) (i : Nat) : ResumeResult :=
  ⟨0, exitToRun c (guestAt s i).2⟩

/-- Every setup call of `run` succeeds, with a mapping size that passes the guard. -/
def Env.setupOk (c : KvmHeader) (env : Env) : Prop :=
  (∃ kvm, env.openKvm = .ok kvm) ∧
  Syscall env.apiVersion = (12, 0) ∧
  (Syscall env.createVM).2 = 0 ∧
  env.mmapMem = none ∧
  (Syscall env.setUserMemoryRegion).2 = 0 ∧
  (Syscall env.createVCPU).2 = 0 ∧
  (Syscall env.vcpuMMapSize).2 = 0 ∧
  ¬ toInt (Syscall env.vcpuMMapSize).1 < (c.sizeof_struct_kvm_run : Int) ∧
  env.mmapRun = true ∧
  (Syscall env.getSRegs).2 = 0 ∧
  (Syscall env.setSRegs).2 = 0 ∧
  (Syscall env.setRegs).2 = 0

/-- Header values of a current x86-64 `<linux/kvm.h>`. -/
def linuxHeader : KvmHeader := ⟨1, 2352⟩

/-- A host on which every setup call succeeds and the vCPU runs the guest model. -/
def workingEnv : Env where
  openKvm := .ok 3
  apiVersion := 12
  createVM := 4
  mmapMem := none
  setUserMemoryRegion := 0
  createVCPU := 5
  vcpuMMapSize := 12288
  mmapRun := true
  getSRegs := 0
  kernelSRegs := ⟨0xffff0000, 0xf000⟩
  setSRegs := 0
  setRegs := 0
  resume := kvmGuest linuxHeader

/-! ## Specification-side functions -/

/-- What one successful non-halt exit adds to the host state: the resume
call, and for an I/O exit the call of the PIO bridge with its writes. -/
def dispatch (c : KvmHeader) (vcpu : Int) (r : ResumeResult) (h : Host) : Host :=
  if r.run.exit_reason = ExitReasonIO then
    ⟨h.trace ++ [.runVCPU vcpu, .handlePio r.run.io (r.run.load64 r.run.io.dataOffset)],
      handlePio c r.run.io (r.run.load64 r.run.io.dataOffset) h.com1Out⟩
  else ⟨h.trace ++ [.runVCPU vcpu], h.com1Out⟩

/-- The host state after dispatching the `n` exits `i, ..., i + n - 1`. -/
def dispatchMany (c : KvmHeader) (resume : Nat → ResumeResult) (vcpu : Int) :
    Nat → Nat → Host → Host
  | 0, _, h => h
  | n + 1, i, h => dispatchMany c resume vcpu n (i + 1) (dispatch c vcpu (resume i) h)

/-- What the PIO bridge writes for one exit when its reason is the I/O exit,
and nothing otherwise. -/
def pioWrites (c : KvmHeader) (r : ResumeResult) : Writer :=
  if r.run.exit_reason = ExitReasonIO then
    handlePio c r.run.io (r.run.load64 r.run.io.dataOffset) []
  else []

/-- The contents of the guest memory buffer after the load step of `run`. -/
def loadedMem : List Nat := (goCopy (List.replicate 0x1000 0) code).1

/-- The vCPU setup `run` leaves behind when every setup call succeeds. -/
def vcpuSetup (env : Env) (rax rbx : Nat) : VCPUSetup :=
  ⟨loadedMem, ⟨0, 0x1000, 0x1000⟩, { env.kernelSRegs with csBase := 0, csSelector := 0 },
    { Regs.zero with rip := 0x1000, rax := rax, rbx := rbx, rflags := 0x2 }⟩

/-- The trace of the setup phase of `run` when every call succeeds, up to and
including `LockOSThread`. -/
def setupTrace (env : Env) (rax rbx : Nat) (kvm : Int) : List Op :=
  [.openKvm, .getApiVersion kvm, .createVM kvm, .mmap (-1) 0x1000,
   .setUserMemoryRegion (toInt (Syscall env.createVM).1) ⟨0, 0x1000, 0x1000⟩,
   .createVCPU (toInt (Syscall env.createVM).1),
   .getVCPUMMapSize kvm,
   .mmap (toInt (Syscall env.createVCPU).1) (toInt (Syscall env.vcpuMMapSize).1),
   .getSRegs (toInt (Syscall env.createVCPU).1),
   .setSRegs (toInt (Syscall env.createVCPU).1) (vcpuSetup env rax rbx).sregs,
   .setRegs (toInt (Syscall env.createVCPU).1) (vcpuSetup env rax rbx).regs,
   .lockOSThread]

/-- Every setup call of `run` before the size guard succeeds: the device is
opened as `kvm`, the version is accepted, the VM, the guest memory, its
registration and the vCPU are created. -/
def Env.reachesGuard (env : Env) (kvm : Int) : Prop :=
  env.openKvm = .ok kvm ∧
  Syscall env.apiVersion = (12, 0) ∧
  (Syscall env.createVM).2 = 0 ∧
  env.mmapMem = none ∧
  (Syscall env.setUserMemoryRegion).2 = 0 ∧
  (Syscall env.createVCPU).2 = 0

/-- A working host whose vCPU exits with an OUT of 0x41 to port 0x3f8, then
with an MMIO exit, then halts. -/
def scriptEnv : Env :=
  { workingEnv with
    resume := fun _ i =>
      match i with
      | 0 => ⟨0, ⟨ ExitReasonIO, ⟨1, 1, 0x3f8, 1, 0x1000⟩, fun _ => 0x41⟩⟩
      | 1 => ⟨0, ⟨ ExitReasonMMIO, ⟨0, 0, 0, 0, 0⟩, fun _ => 0⟩⟩
      | _ => ⟨0, ⟨ExitReasonHLT, ⟨0, 0, 0, 0, 0⟩, fun _ => 0⟩⟩ }

/-- A working host whose vCPU exits once with an OUT of 0x41 to port 0x3f8 and
whose second resume fails with errno 4. -/
def failingEnv : Env :=
  { workingEnv with
    resume := fun _ i =>
      match i with
      | 0 => ⟨0, ⟨ ExitReasonIO, ⟨1, 1, 0x3f8, 1, 0x1000⟩, fun _ => 0x41⟩⟩
      | _ => ⟨2 ^ 64 - 4, ⟨ ExitReasonIO, ⟨1, 1, 0x3f8, 1, 0x1000⟩, fun _ => 0x42⟩⟩ }

/-- A host whose `/dev/kvm` reports API version 11. -/
def oldKvmEnv : Env := { workingEnv with apiVersion := 11 }

/-- A host whose vCPU mapping size is one page, below `sizeof(struct kvm_run)`
of `bigHeader`. -/
def smallMapEnv : Env := { workingEnv with vcpuMMapSize := 4096 }

/-- A header whose run structure is larger than one page. -/
def bigHeader : KvmHeader := ⟨1, 8192⟩

/-! ## Basic facts -/

theorem code_length : code.length = 12 := rfl

theorem loadStep_code : loadStep (List.replicate 0x1000 0) code = some loadedMem := by
  have h : (goCopy (List.replicate 0x1000 0) code).2 = 12 := by
    simp only [goCopy, List.length_replicate, code_length]
    decide
  simp only [loadStep, loadedMem, h]
  rfl

/-- A `Syscall` that reports errno 0 never returns `r1 = -1`: the second test
of `err != nil || ret == -1` in the loop cannot fire on its own. -/
theorem Syscall_not_minus_one (raw : Nat) (h : (Syscall raw).2 = 0) :
    toInt (Syscall raw).1 ≠ -1 := by
  unfold Syscall at *
  simp only at *
  split at h
  · rename_i h1
    simp only [toInt]
    split <;> omega
  · simp at h
    omega

theorem handlePio_append (c : KvmHeader) (pio : KVMExitIO) (data : Nat) (w : Writer) :
    handlePio c pio data w = w ++ handlePio c pio data [] := by
  unfold handlePio
  split <;> simp

theorem appendRune_RuneError : appendRune RuneError = [0xEF, 0xBF, 0xBD] := by decide

theorem sprintfC_eq (d : Nat) :
    sprintfC d = if d % 2 ^ 32 ≤ MaxRune then appendRune (d % 2 ^ 32) else appendRune RuneError := by
  have hlt : d % 2 ^ 32 < 2 ^ 32 := Nat.mod_lt _ (by norm_num)
  simp only [sprintfC, fmtC, toRune, runeToUint64, MaxRune] at *
  by_cases h31 : d % 2 ^ 32 < 2 ^ 31
  · rw [if_pos h31, Nat.mod_mod]
    by_cases hm : d % 2 ^ 32 ≤ 0x10FFFF
    · rw [if_neg (by omega), if_pos hm]
    · rw [if_pos (by omega), if_neg hm]
  · rw [if_neg h31, if_pos (by omega), if_neg (by omega)]

/-! ## One turn of the loop -/

theorem execLoop_step_ok (c : KvmHeader) (resume : Nat → ResumeResult) (vcpu : Int)
    (fuel i : Nat) (h : Host) (he : (Syscall (resume i).raw).2 = 0)
    (hr : (resume i).run.exit_reason ≠ ExitReasonHLT) :
    execLoop c resume vcpu (fuel + 1) i h =
      execLoop c resume vcpu fuel (i + 1) (dispatch c vcpu (resume i) h) := by
  have hm := Syscall_not_minus_one _ he
  rw [execLoop]
  simp only [runVCPU, he, ne_eq, not_true_eq_false, if_false, hm, or_self, hr, Host.log, dispatch]
  split <;> simp

theorem execLoop_step_hlt (c : KvmHeader) (resume : Nat → ResumeResult) (vcpu : Int)
    (fuel i : Nat) (h : Host) (he : (Syscall (resume i).raw).2 = 0)
    (hr : (resume i).run.exit_reason = ExitReasonHLT) :
    execLoop c resume vcpu (fuel + 1) i h =
      ⟨.returned, h.trace ++ [.runVCPU vcpu, .println "exit: HLT"], h.com1Out⟩ := by
  have hm := Syscall_not_minus_one _ he
  rw [execLoop]
  simp [runVCPU, he, hm, hr, Host.log]

theorem execLoop_step_fail (c : KvmHeader) (resume : Nat → ResumeResult) (vcpu : Int)
    (fuel i : Nat) (h : Host) (he : (Syscall (resume i).raw).2 ≠ 0) :
    execLoop c resume vcpu (fuel + 1) i h =
      ⟨.panicked (.error (some "failed to run cpu")), h.trace ++ [.runVCPU vcpu], h.com1Out⟩ := by
  rw [execLoop]
  simp [runVCPU, he, Host.log, Host.panic]

/-- The loop runs through `n` successful non-Halt exits, dispatching each. -/
theorem execLoop_dispatchMany (c : KvmHeader) (resume : Nat → ResumeResult) (vcpu : Int) :
    ∀ (n fuel i : Nat) (h : Host),
      (∀ j, j < n → (Syscall (resume (i + j)).raw).2 = 0 ∧
        (resume (i + j)).run.exit_reason ≠ ExitReasonHLT) →
      execLoop c resume vcpu (n + fuel) i h =
        execLoop c resume vcpu fuel (i + n) (dispatchMany c resume vcpu n i h) := by
  intro n
  induction n with
  | zero => intro fuel i h _; simp [dispatchMany]
  | succ n ih =>
    intro fuel i h hall
    have h0 := hall 0 (Nat.succ_pos n)
    rw [Nat.add_zero] at h0
    have e1 : n + 1 + fuel = (n + fuel) + 1 := by omega
    rw [e1, execLoop_step_ok c resume vcpu _ i h h0.1 h0.2, ih fuel (i + 1)]
    · have e2 : i + 1 + n = i + (n + 1) := by omega
      rw [e2, dispatchMany]
    · intro j hj
      have := hall (j + 1) (by omega)
      have e3 : i + 1 + j = i + (j + 1) := by omega
      rw [e3]; exact this

theorem resumeCount_append (a b : List Op) :
    resumeCount (a ++ b) = resumeCount a + resumeCount b := by
  induction a with
  | nil => simp [resumeCount]
  | cons x t ih =>
    cases x <;> simp [resumeCount, ih]
    omega

theorem dispatch_resumeCount (c : KvmHeader) (vcpu : Int) (r : ResumeResult) (h : Host) :
    resumeCount (dispatch c vcpu r h).trace = resumeCount h.trace + 1 := by
  unfold dispatch
  split <;> simp [resumeCount_append, resumeCount]

theorem dispatch_com1Out (c : KvmHeader) (vcpu : Int) (r : ResumeResult) (h : Host) :
    (dispatch c vcpu r h).com1Out = h.com1Out ++ pioWrites c r := by
  unfold dispatch pioWrites
  split
  · exact handlePio_append _ _ _ _
  · simp

theorem dispatchMany_resumeCount (c : KvmHeader) (resume : Nat → ResumeResult) (vcpu : Int) :
    ∀ (n i : Nat) (h : Host),
      resumeCount (dispatchMany c resume vcpu n i h).trace = resumeCount h.trace + n := by
  intro n
  induction n with
  | zero => intro i h; simp [dispatchMany]
  | succ n ih =>
    intro i h
    rw [dispatchMany, ih, dispatch_resumeCount]
    omega

theorem dispatchMany_com1Out (c : KvmHeader) (resume : Nat → ResumeResult) (vcpu : Int) :
    ∀ (n i : Nat) (h : Host),
      (dispatchMany c resume vcpu n i h).com1Out =
        h.com1Out ++ ((List.range n).map (fun j => pioWrites c (resume (i + j)))).flatten := by
  intro n
  induction n with
  | zero => intro i h; simp [dispatchMany]
  | succ n ih =>
    intro i h
    rw [dispatchMany, ih, dispatch_com1Out, List.range_succ_eq_map]
    simp only [List.map_cons, List.map_map, List.flatten_cons, Nat.add_zero, List.append_assoc]
    congr 2
    apply congrArg
    apply List.map_congr_left
    intro j _
    simp only [Function.comp]
    congr 2
    omega

/-! ## `run` when the setup succeeds -/

/-- When every setup call succeeds, `run` is its loop started on the setup
trace, followed by the three deferred calls. -/
theorem runWith_setupOk (rax rbx : Nat) (c : KvmHeader) (env : Env) (fuel : Nat) (w : Writer)
    (kvm : Int) (hk : env.openKvm = .ok kvm) (hs : env.setupOk c) :
    runWith rax rbx c env fuel w =
      (((execLoop c (env.resume (vcpuSetup env rax rbx)) (toInt (Syscall env.createVCPU).1)
          fuel 0 ⟨setupTrace env rax rbx kvm, w⟩).deferred .unlockOSThread).deferred
          (.close (toInt (Syscall env.createVM).1))).deferred (.close kvm) := by
  obtain ⟨_, h2, h3, h4, h5, h6, h7, h8, h9, h10, h11, h12⟩ := hs
  simp only [runWith, hk, runKvm, validateVersion, h2, createVM, h3, runVM, h4, loadStep_code,
    h5, createVCPU, h6, getVCPUMMapSize, h7, h8, h9, getVCPUSRegs, h10, setVCPUSRegs, h11,
    setVCPURegs, h12, Host.log, vcpuSetup, setupTrace, ne_eq, not_true_eq_false, if_false,
    List.cons_append, List.nil_append, Bool.true_eq_false]
  rfl

/-! ## The guest program on the guest model -/

theorem goCopy_length (dst src : List Nat) : (goCopy dst src).1.length = dst.length := by
  simp only [goCopy, List.length_append, List.length_take, List.length_drop]
  omega

theorem goCopy_get (dst src : List Nat) (k : Nat) (hk : k < src.length)
    (hle : src.length ≤ dst.length) : (goCopy dst src).1.get? k = src.get? k := by
  have h1 : min dst.length src.length = src.length := by omega
  simp only [goCopy, h1, List.take_length]
  rw [List.get?_eq_getElem?, List.getElem?_append_left hk, List.get?_eq_getElem?]

theorem loadedMem_length : loadedMem.length = 0x1000 := by
  rw [loadedMem, goCopy_length, List.length_replicate]

theorem loadedMem_get (k : Nat) (hk : k < 12) : loadedMem.get? k = code.get? k := by
  rw [loadedMem]
  apply goCopy_get
  · rw [code_length]; exact hk
  · rw [code_length, List.length_replicate]; decide

theorem fetch_code (env : Env) (a b k : Nat) (hk : k < 12) :
    fetch (vcpuSetup env a b) (0x1000 + k) = code.get? k := by
  simp only [fetch, vcpuSetup]
  rw [if_pos (by omega)]
  rw [show 0x1000 + k - 0x1000 = k by omega]
  exact loadedMem_get k hk

theorem guestRun_first (s : VCPUSetup) (a b m : Nat) (hab : a + b ≤ 9)
    (f0 : fetch s 4096 = some 0xba) (f1 : fetch s 4097 = some 0xf8)
    (f2 : fetch s 4098 = some 0x03) (f3 : fetch s 4099 = some 0x00)
    (f4 : fetch s 4100 = some 0xd8) (f5 : fetch s 4101 = some 0x04)
    (f6 : fetch s 4102 = some 0x30) (f7 : fetch s 4103 = some 0xee) :
    guestRun s (m + 4) ⟨a, b, 0, 4096⟩ =
      (⟨a + b + 48, b, 0x3f8, 4104⟩, .out 0x3f8 (a + b + 48)) := by
  simp [guestRun, guestStep, f0, f1, f2, f3, f4, f5, f6, f7, setLow8, setLow16]
  constructor <;> omega

theorem guestRun_second (s : VCPUSetup) (x b m : Nat)
    (f8 : fetch s 4104 = some 0xb0) (f9 : fetch s 4105 = some 0x0a)
    (f10 : fetch s 4106 = some 0xee) (hx : x < 256) :
    guestRun s (m + 2) ⟨x, b, 0x3f8, 4104⟩ = (⟨10, b, 0x3f8, 4107⟩, .out 0x3f8 10) := by
  simp [guestRun, guestStep, f8, f9, f10, setLow8]
  omega

theorem guestRun_third (s : VCPUSetup) (b m : Nat) (f11 : fetch s 4107 = some 0xf4) :
    guestRun s (m + 1) ⟨10, b, 0x3f8, 4107⟩ = (⟨10, b, 0x3f8, 4108⟩, .hlt) := by
  simp [guestRun, guestStep, f11]

/-- The guest model on the loaded program exits with the OUT of the digit,
the OUT of the newline, and the HLT. -/
theorem guest_exits (env : Env) (a b : Nat) (hab : a + b ≤ 9) :
    (guestAt (vcpuSetup env a b) 0).2 = .out 0x3f8 (a + b + 48) ∧
    (guestAt (vcpuSetup env a b) 1).2 = .out 0x3f8 10 ∧
    (guestAt (vcpuSetup env a b) 2).2 = .hlt := by
  have hl : (vcpuSetup env a b).mem.length = 4092 + 4 := by
    simp only [vcpuSetup]
    exact loadedMem_length
  have hi : guestInit (vcpuSetup env a b) = ⟨a, b, 0, 4096⟩ := by
    simp [guestInit, vcpuSetup, Regs.zero]
  have e0 : guestAt (vcpuSetup env a b) 0 =
      (⟨a + b + 48, b, 0x3f8, 4104⟩, .out 0x3f8 (a + b + 48)) := by
    rw [guestAt, hl, hi]
    exact guestRun_first _ a b 4092 hab (fetch_code env a b 0 (by decide))
      (fetch_code env a b 1 (by decide)) (fetch_code env a b 2 (by decide))
      (fetch_code env a b 3 (by decide)) (fetch_code env a b 4 (by decide))
      (fetch_code env a b 5 (by decide)) (fetch_code env a b 6 (by decide))
      (fetch_code env a b 7 (by decide))
  have e1 : guestAt (vcpuSetup env a b) 1 = (⟨10, b, 0x3f8, 4107⟩, .out 0x3f8 10) := by
    rw [guestAt, e0, hl]
    exact guestRun_second _ (a + b + 48) b 4094 (fetch_code env a b 8 (by decide))
      (fetch_code env a b 9 (by decide)) (fetch_code env a b 10 (by decide)) (by omega)
  have e2 : guestAt (vcpuSetup env a b) 2 = (⟨10, b, 0x3f8, 4108⟩, .hlt) := by
    rw [guestAt, e1, hl]
    exact guestRun_third _ b 4095 (fetch_code env a b 11 (by decide))
  rw [e0, e1, e2]
  exact ⟨rfl, rfl, rfl⟩

theorem sprintfC_ascii (d : Nat) (h : d ≤ 0x7F) : sprintfC d = [d] := by
  have h1 : d % 2 ^ 32 = d := Nat.mod_eq_of_lt (by omega)
  rw [sprintfC_eq, h1, if_pos (by simp only [MaxRune]; omega), appendRune, if_pos h]
  congr 1
  omega

theorem workingEnv_setupOk : workingEnv.setupOk linuxHeader := by
  refine ⟨⟨3, rfl⟩, ?_, ?_, ?_, ?_, ?_, ?_, ?_, ?_, ?_, ?_, ?_⟩ <;> decide

/-! ## Run-level consequences of the loop lemmas -/

theorem deferred_of_returned (t : List Op) (w : Writer) (op : Op) :
    (Result.mk .returned t w).deferred op = ⟨.returned, t ++ [op], w⟩ := rfl

theorem deferred_of_panicked (v : PanicValue) (t : List Op) (w : Writer) (op : Op) :
    (Result.mk (.panicked v) t w).deferred op = ⟨.panicked v, t ++ [op], w⟩ := rfl

theorem resumeCount_setupTrace (env : Env) (a b : Nat) (kvm : Int) :
    resumeCount (setupTrace env a b kvm) = 0 := by
  simp [setupTrace, resumeCount]

theorem runWith_halt_at (a b : Nat) (c : KvmHeader) (env : Env) (fuel k : Nat) (w : Writer)
    (kvm : Int) (hk : env.openKvm = .ok kvm) (hs : env.setupOk c)
    (hpre : ∀ i, i < k → (Syscall (env.resume (vcpuSetup env a b) i).raw).2 = 0 ∧
      (env.resume (vcpuSetup env a b) i).run.exit_reason ≠ ExitReasonHLT)
    (hhalt : (Syscall (env.resume (vcpuSetup env a b) k).raw).2 = 0 ∧
      (env.resume (vcpuSetup env a b) k).run.exit_reason = ExitReasonHLT)
    (hf : k + 1 ≤ fuel) :
    runWith a b c env fuel w =
      ⟨.returned,
        (dispatchMany c (env.resume (vcpuSetup env a b)) (toInt (Syscall env.createVCPU).1) k 0
          ⟨setupTrace env a b kvm, w⟩).trace ++
          [.runVCPU (toInt (Syscall env.createVCPU).1), .println "exit: HLT", .unlockOSThread,
            .close (toInt (Syscall env.createVM).1), .close kvm],
        (dispatchMany c (env.resume (vcpuSetup env a b)) (toInt (Syscall env.createVCPU).1) k 0
          ⟨setupTrace env a b kvm, w⟩).com1Out⟩ := by
  obtain ⟨f, rfl⟩ : ∃ f, fuel = k + (f + 1) := ⟨fuel - (k + 1), by omega⟩
  rw [runWith_setupOk a b c env _ w kvm hk hs, execLoop_dispatchMany c _ _ k (f + 1) 0 _
    (by intro j hj; rw [Nat.zero_add]; exact hpre j hj), Nat.zero_add,
    execLoop_step_hlt c _ _ f k _ hhalt.1 hhalt.2]
  simp [deferred_of_returned]

theorem runWith_fail_at (a b : Nat) (c : KvmHeader) (env : Env) (fuel k : Nat) (w : Writer)
    (kvm : Int) (hk : env.openKvm = .ok kvm) (hs : env.setupOk c)
    (hpre : ∀ i, i < k → (Syscall (env.resume (vcpuSetup env a b) i).raw).2 = 0 ∧
      (env.resume (vcpuSetup env a b) i).run.exit_reason ≠ ExitReasonHLT)
    (hfail : (Syscall (env.resume (vcpuSetup env a b) k).raw).2 ≠ 0)
    (hf : k + 1 ≤ fuel) :
    runWith a b c env fuel w =
      ⟨.panicked (.error (some "failed to run cpu")),
        (dispatchMany c (env.resume (vcpuSetup env a b)) (toInt (Syscall env.createVCPU).1) k 0
          ⟨setupTrace env a b kvm, w⟩).trace ++
          [.runVCPU (toInt (Syscall env.createVCPU).1), .unlockOSThread,
            .close (toInt (Syscall env.createVM).1), .close kvm],
        (dispatchMany c (env.resume (vcpuSetup env a b)) (toInt (Syscall env.createVCPU).1) k 0
          ⟨setupTrace env a b kvm, w⟩).com1Out⟩ := by
  obtain ⟨f, rfl⟩ : ∃ f, fuel = k + (f + 1) := ⟨fuel - (k + 1), by omega⟩
  rw [runWith_setupOk a b c env _ w kvm hk hs, execLoop_dispatchMany c _ _ k (f + 1) 0 _
    (by intro j hj; rw [Nat.zero_add]; exact hpre j hj), Nat.zero_add,
    execLoop_step_fail c _ _ f k _ hfail]
  simp [deferred_of_panicked]

theorem pioWrites_filter (c : KvmHeader) (resume : Nat → ResumeResult) (l : List Nat) :
    (l.map (fun i => pioWrites c (resume i))).flatten =
      (l.filter (fun i => decide ((resume i).run.exit_reason = ExitReasonIO))).flatMap
        (fun i => handlePio c (resume i).run.io
          ((resume i).run.load64 (resume i).run.io.dataOffset) []) := by
  induction l with
  | nil => rfl
  | cons x t ih =>
    rw [List.map_cons, List.flatten_cons, ih, List.filter_cons]
    by_cases hx : (resume x).run.exit_reason = ExitReasonIO
    · simp [hx, pioWrites]
    · simp [hx, pioWrites]

/-! ## The claims -/

/-- C1. End-to-end: on a host where every setup call succeeds and the vCPU
behaves as the guest model on the 12-byte program, for operand registers `a`
and `b` with `a + b ≤ 9` the writer receives exactly two one-byte writes, the
ASCII digit of `a + b` and then the newline, after three resume calls, and `run`
logs the HLT exit and returns; `run` itself (operands 2 and 2) writes the bytes
of "4\n". -/
theorem run_prints_sum (c : KvmHeader) (env : Env) (a b fuel : Nat) (w : Writer)
    (hs : env.setupOk c) (hg : env.resume = kvmGuest c) (hab : a + b ≤ 9) (hf : 3 ≤ fuel) :
    (runWith a b c env fuel w).outcome = .returned ∧
    (runWith a b c env fuel w).com1Out = w ++ [[0x30 + (a + b)], [0x0a]] ∧
    resumeCount (runWith a b c env fuel w).trace = 3 ∧
    Op.println "exit: HLT" ∈ (runWith a b c env fuel w).trace ∧
    (run c env fuel w).outcome = .returned ∧
    (run c env fuel w).com1Out = w ++ [[0x34], [0x0a]] := by
  have key : ∀ x y, x + y ≤ 9 →
      (runWith x y c env fuel w).outcome = .returned ∧
      (runWith x y c env fuel w).com1Out = w ++ [[0x30 + (x + y)], [0x0a]] ∧
      resumeCount (runWith x y c env fuel w).trace = 3 ∧
      Op.println "exit: HLT" ∈ (runWith x y c env fuel w).trace := by
    intro x y hxy
    obtain ⟨kvm, hk⟩ := hs.1
    obtain ⟨g0, g1, g2⟩ := guest_exits env x y hxy
    have hr : ∀ i, env.resume (vcpuSetup env x y) i =
        ⟨0, exitToRun c (guestAt (vcpuSetup env x y) i).2⟩ := by
      intro i; rw [hg]; rfl
    have h0 : (Syscall 0).2 = 0 := by decide
    rw [runWith_halt_at x y c env fuel 2 w kvm hk hs ?_ ?_ hf]
    · refine ⟨rfl, ?_, ?_, by simp⟩
      · simp only [dispatchMany_com1Out, List.range_succ, List.range_zero, List.nil_append,
          List.map_cons, List.map_nil, List.cons_append, Nat.zero_add, hr, g0, g1, pioWrites,
          exitToRun, handlePio, pioDataOffset, and_self, if_true, List.flatten_cons,
          List.flatten_nil, List.append_nil]
        rw [sprintfC_ascii _ (by omega), sprintfC_ascii _ (by omega)]
        simp [Nat.add_comm]
      · rw [resumeCount_append, dispatchMany_resumeCount, resumeCount_setupTrace]
        simp [resumeCount]
    · intro i hi
      rw [hr]
      have : i = 0 ∨ i = 1 := by omega
      rcases this with rfl | rfl
      · rw [g0]; exact ⟨h0, by simp [exitToRun, ExitReasonIO, ExitReasonHLT]⟩
      · rw [g1]; exact ⟨h0, by simp [exitToRun, ExitReasonIO, ExitReasonHLT]⟩
    · rw [hr, g2]; exact ⟨h0, rfl⟩
  obtain ⟨k1, k2, k3, k4⟩ := key a b hab
  obtain ⟨r1, r2, _⟩ := key 2 2 (by decide)
  exact ⟨k1, k2, k3, k4, r1, r2⟩

/-- Witness of C1: operands 3 and 4 on the working host print "7\n". -/
theorem run_prints_sum_witness :
    workingEnv.setupOk linuxHeader ∧ workingEnv.resume = kvmGuest linuxHeader ∧ 3 + 4 ≤ 9 ∧
      (runWith 3 4 linuxHeader workingEnv 3 []).com1Out = [[0x37], [0x0a]] ∧
      (run linuxHeader workingEnv 3 []).com1Out = [[0x34], [0x0a]] :=
  ⟨workingEnv_setupOk, rfl, by decide,
    (run_prints_sum linuxHeader workingEnv 3 4 3 [] workingEnv_setupOk rfl (by decide)
      (by decide)).2.1,
    (run_prints_sum linuxHeader workingEnv 3 4 3 [] workingEnv_setupOk rfl (by decide)
      (by decide)).2.2.2.2.2⟩

/-- C2. Port filtering: when the port is not 0x3f8 or the direction is not
OUT, `handlePio` leaves the writer exactly as it was, for every data word: no
`Write` call is made and no byte is added. -/
theorem handlePio_ignores_other_ports (c : KvmHeader) (pio : KVMExitIO) (data : Nat)
    (com1Out : Writer) (h : pio.port ≠ 0x3f8 ∨ pio.direction ≠ c.KVM_EXIT_IO_OUT) :
    handlePio c pio data com1Out = com1Out ∧
    (handlePio c pio data com1Out).length = com1Out.length ∧
    (handlePio c pio data com1Out).bytes = com1Out.bytes ∧
    handlePio c pio data [] = [] := by
  have hn : ¬ (pio.port = 0x3f8 ∧ pio.direction = c.KVM_EXIT_IO_OUT) := by
    rintro ⟨h1, h2⟩
    rcases h with h | h
    · exact h h1
    · exact h h2
  simp [handlePio, hn]

/-- Witness of C2: a read (direction 0) on port 0x3f8 writes nothing. -/
theorem handlePio_ignores_other_ports_witness :
    handlePio linuxHeader ⟨0, 1, 0x3f8, 1, 0x1000⟩ 0x41 [[0x34]] = [[0x34]] :=
  (handlePio_ignores_other_ports linuxHeader ⟨0, 1, 0x3f8, 1, 0x1000⟩ 0x41 [[0x34]]
    (Or.inr (by decide))).1

/-- C3 as stated fails: the data words 0x141 and 0x41 have the same low-order
byte, yet an OUT on port 0x3f8 writes the two bytes C5 81 for the first and
the single byte 41 for the second. -/
theorem handlePio_high_bits_counterexample :
    0x141 % 256 = 0x41 % 256 ∧
    handlePio linuxHeader ⟨1, 1, 0x3f8, 1, 0x1000⟩ 0x141 [] = [[0xC5, 0x81]] ∧
    handlePio linuxHeader ⟨1, 1, 0x3f8, 1, 0x1000⟩ 0x41 [] = [[0x41]] := by
  decide

/-- C3, amended. For an OUT on port 0x3f8 and every data word `d`,
`handlePio` performs exactly one `Write`; it writes the UTF-8 encoding of the
character whose code is the low-order 32 bits of `d`, or of U+FFFD when that
value is above `MaxRune` or a surrogate (then the three bytes EF BF BD); the
output does not depend on any bit of `d` above bit 31; when the low 32 bits
are at most 0x7F the write is the single byte `d % 256`; and every write has
one to four bytes. -/
theorem handlePio_out_writes_rune (c : KvmHeader) (pio : KVMExitIO) (d : Nat) (com1Out : Writer)
    (hp : pio.port = 0x3f8) (hd : pio.direction = c.KVM_EXIT_IO_OUT) :
    handlePio c pio d com1Out = com1Out ++ [sprintfC d] ∧
    sprintfC d =
      (if d % 2 ^ 32 ≤ MaxRune then appendRune (d % 2 ^ 32) else appendRune RuneError) ∧
    (∀ d1, d1 % 2 ^ 32 = d % 2 ^ 32 →
      handlePio c pio d1 com1Out = handlePio c pio d com1Out) ∧
    (d % 2 ^ 32 ≤ 0x7F → sprintfC d = [d % 256]) ∧
    (MaxRune < d % 2 ^ 32 ∨ (0xD800 ≤ d % 2 ^ 32 ∧ d % 2 ^ 32 ≤ 0xDFFF) →
      sprintfC d = [0xEF, 0xBF, 0xBD]) ∧
    (1 ≤ (sprintfC d).length ∧ (sprintfC d).length ≤ 4) := by
  have hw : ∀ x, handlePio c pio x com1Out = com1Out ++ [sprintfC x] := by
    intro x; simp [handlePio, hp, hd]
  refine ⟨hw d, sprintfC_eq d, ?_, ?_, ?_, ?_⟩
  · intro d1 h1
    rw [hw, hw, sprintfC_eq d1, sprintfC_eq d, h1]
  · intro h
    rw [sprintfC_eq, if_pos (by simp only [MaxRune]; omega), appendRune, if_pos h]
    congr 1
    omega
  · intro h
    rw [sprintfC_eq]
    split
    · rename_i hle
      have hs : 0xD800 ≤ d % 2 ^ 32 ∧ d % 2 ^ 32 ≤ 0xDFFF := by
        rcases h with h | h
        · omega
        · exact h
      rw [appendRune, if_neg (by omega), if_neg (by omega), if_pos (Or.inr hs)]
      decide
    · exact appendRune_RuneError
  · rw [sprintfC_eq]
    split
    · unfold appendRune
      repeat' split
      all_goals simp
    · rw [appendRune_RuneError]
      simp

/-- Witness of C3 (amended): an OUT of 0x34 on port 0x3f8 is one write of the
byte 0x34. -/
theorem handlePio_out_writes_rune_witness :
    handlePio linuxHeader ⟨1, 1, 0x3f8, 1, 0x1000⟩ 0x34 [] = [] ++ [sprintfC 0x34] ∧
      sprintfC 0x34 = [0x34 % 256] :=
  ⟨(handlePio_out_writes_rune linuxHeader ⟨1, 1, 0x3f8, 1, 0x1000⟩ 0x34 [] rfl rfl).1,
    (handlePio_out_writes_rune linuxHeader ⟨1, 1, 0x3f8, 1, 0x1000⟩ 0x34 [] rfl rfl).2.2.2.1
      (by decide)⟩

/-- The operations of one dispatched exit: the resume, and for an I/O exit
the call of the PIO bridge. -/
theorem dispatch_trace_eq (c : KvmHeader) (vcpu : Int) (r : ResumeResult) (h : Host) :
    (dispatch c vcpu r h).trace = h.trace ++ (.runVCPU vcpu ::
      if r.run.exit_reason = ExitReasonIO then
        [.handlePio r.run.io (r.run.load64 r.run.io.dataOffset)] else []) := by
  unfold dispatch
  split <;> rfl

theorem dispatchMany_trace (c : KvmHeader) (resume : Nat → ResumeResult) (vcpu : Int) :
    ∀ (n i : Nat) (h : Host),
      (dispatchMany c resume vcpu n i h).trace =
        h.trace ++ (List.range n).flatMap (fun j => .runVCPU vcpu ::
          if (resume (i + j)).run.exit_reason = ExitReasonIO then
            [.handlePio (resume (i + j)).run.io
              ((resume (i + j)).run.load64 (resume (i + j)).run.io.dataOffset)] else []) := by
  intro n
  induction n with
  | zero => intro i h; simp [dispatchMany]
  | succ n ih =>
    intro i h
    rw [dispatchMany, ih, dispatch_trace_eq, List.range_succ_eq_map]
    simp only [List.flatMap_cons, List.flatMap_map, Nat.add_zero, List.append_assoc]
    congr 2
    apply List.flatMap_congr
    intro j _
    rw [show i + 1 + j = i + (j + 1) by omega]

theorem dispatchMany_congr (c : KvmHeader) (r1 r2 : Nat → ResumeResult) (vcpu : Int) :
    ∀ (n i : Nat) (h : Host), (∀ j, j < n → r1 (i + j) = r2 (i + j)) →
      dispatchMany c r1 vcpu n i h = dispatchMany c r2 vcpu n i h := by
  intro n
  induction n with
  | zero => intro i h _; rfl
  | succ n ih =>
    intro i h hall
    have h0 := hall 0 (Nat.succ_pos n)
    rw [Nat.add_zero] at h0
    rw [dispatchMany, dispatchMany, h0]
    apply ih
    intro j hj
    have := hall (j + 1) (by omega)
    rw [show i + 1 + j = i + (j + 1) by omega]
    exact this

/-- C4. Halt termination: on a host whose setup succeeds, if the first `n`
resume results are successful non-Halt exits and the next one is a successful
Halt exit (so the Halt is result number `k = n + 1`), then with fuel for `k`
turns `run` returns normally, its trace holds exactly `k` resume calls, and
after the resume that observed the Halt only the log line, the thread unlock
and the two closes follow. -/
theorem run_returns_on_halt (c : KvmHeader) (env : Env) (fuel n : Nat) (w : Writer)
    (hs : env.setupOk c)
    (hpre : ∀ i, i < n → (Syscall (env.resume (vcpuSetup env 2 2) i).raw).2 = 0 ∧
      (env.resume (vcpuSetup env 2 2) i).run.exit_reason ≠ ExitReasonHLT)
    (hhalt : (Syscall (env.resume (vcpuSetup env 2 2) n).raw).2 = 0 ∧
      (env.resume (vcpuSetup env 2 2) n).run.exit_reason = ExitReasonHLT)
    (hf : n + 1 ≤ fuel) :
    (run c env fuel w).outcome = .returned ∧
    resumeCount (run c env fuel w).trace = n + 1 ∧
    ∃ pre vcpu vm kvm, resumeCount pre = n ∧
      (run c env fuel w).trace =
        pre ++ [.runVCPU vcpu, .println "exit: HLT", .unlockOSThread, .close vm, .close kvm] := by
  obtain ⟨kvm, hk⟩ := hs.1
  rw [run, runWith_halt_at 2 2 c env fuel n w kvm hk hs hpre hhalt hf]
  have hc := dispatchMany_resumeCount c (env.resume (vcpuSetup env 2 2))
    (toInt (Syscall env.createVCPU).1) n 0 ⟨setupTrace env 2 2 kvm, w⟩
  rw [resumeCount_setupTrace, Nat.zero_add] at hc
  refine ⟨rfl, ?_, _, _, _, _, hc, rfl⟩
  rw [resumeCount_append, hc]
  simp [resumeCount]

/-- Witness of C4: on the scripted host the Halt is the third result. -/
theorem run_returns_on_halt_witness :
    (run linuxHeader scriptEnv 3 []).outcome = .returned ∧
      resumeCount (run linuxHeader scriptEnv 3 []).trace = 2 + 1 :=
  ⟨(run_returns_on_halt linuxHeader scriptEnv 3 2 [] workingEnv_setupOk (by decide) (by decide)
      (by decide)).1,
    (run_returns_on_halt linuxHeader scriptEnv 3 2 [] workingEnv_setupOk (by decide) (by decide)
      (by decide)).2.1⟩

/-- C9. No retry on resume failure: `runVCPU` returns an error exactly when
the ioctl reports a non-zero errno, and then its result is -1; and on a host
whose setup succeeds, if the first `n` resume results are successful non-Halt
exits and the next resume fails (the failing resume is number `k = n + 1`),
then with fuel for `k` turns `run` panics with the error of `runVCPU`, its trace
holds exactly `k` resume calls, after the failed resume only the thread unlock
and the two closes follow (no call of `handlePio`, no further resume), and
nothing `run` does depends on the run structure left by the failed resume. -/
theorem run_aborts_on_resume_failure (c : KvmHeader) (env : Env) (fuel n : Nat) (w : Writer)
    (hs : env.setupOk c)
    (hpre : ∀ i, i < n → (Syscall (env.resume (vcpuSetup env 2 2) i).raw).2 = 0 ∧
      (env.resume (vcpuSetup env 2 2) i).run.exit_reason ≠ ExitReasonHLT)
    (hfail : (Syscall (env.resume (vcpuSetup env 2 2) n).raw).2 ≠ 0)
    (hf : n + 1 ≤ fuel) :
    (∀ sys : Nat × Nat, ((runVCPU sys).2 ≠ none ↔ sys.2 ≠ 0) ∧
      (sys.2 ≠ 0 → (runVCPU sys).1 = -1)) ∧
    (run c env fuel w).outcome = .panicked (.error (some "failed to run cpu")) ∧
    resumeCount (run c env fuel w).trace = n + 1 ∧
    (∃ pre vcpu vm kvm, resumeCount pre = n ∧
      (run c env fuel w).trace = pre ++ [.runVCPU vcpu, .unlockOSThread, .close vm, .close kvm]) ∧
    (∀ r : KvmRun,
      run c { env with resume := fun s i =>
        if i = n then ⟨(env.resume s n).raw, r⟩ else env.resume s i } fuel w =
      run c env fuel w) := by
  obtain ⟨kvm, hk⟩ := hs.1
  have hc := dispatchMany_resumeCount c (env.resume (vcpuSetup env 2 2))
    (toInt (Syscall env.createVCPU).1) n 0 ⟨setupTrace env 2 2 kvm, w⟩
  rw [resumeCount_setupTrace, Nat.zero_add] at hc
  have hrun := runWith_fail_at 2 2 c env fuel n w kvm hk hs hpre hfail hf
  refine ⟨?_, ?_, ?_, ?_, ?_⟩
  · intro sys
    by_cases h : sys.2 = 0 <;> simp [runVCPU, h]
  · rw [run, hrun]
  · rw [run, hrun]
    simp only [resumeCount_append, hc]
    simp [resumeCount]
  · rw [run, hrun]
    exact ⟨_, _, _, _, hc, rfl⟩
  · intro r
    have hpre1 : ∀ i, i < n →
        (Syscall (if i = n then (⟨(env.resume (vcpuSetup env 2 2) n).raw, r⟩ : ResumeResult)
          else env.resume (vcpuSetup env 2 2) i).raw).2 = 0 ∧
        (if i = n then (⟨(env.resume (vcpuSetup env 2 2) n).raw, r⟩ : ResumeResult)
          else env.resume (vcpuSetup env 2 2) i).run.exit_reason ≠ ExitReasonHLT := by
      intro i hi
      have : ¬ (i = n) := by omega
      simp only [this, if_false]
      exact hpre i hi
    have hfail1 :
        (Syscall (if n = n then (⟨(env.resume (vcpuSetup env 2 2) n).raw, r⟩ : ResumeResult)
          else env.resume (vcpuSetup env 2 2) n).raw).2 ≠ 0 := by
      simp only [if_true]
      exact hfail
    have hrun1 := runWith_fail_at 2 2 c
      { env with resume := fun s i =>
          if i = n then ⟨(env.resume s n).raw, r⟩ else env.resume s i }
      fuel n w kvm hk hs hpre1 hfail1 hf
    have hd := dispatchMany_congr c
      (fun i => if i = n then ⟨(env.resume (vcpuSetup env 2 2) n).raw, r⟩
        else env.resume (vcpuSetup env 2 2) i)
      (env.resume (vcpuSetup env 2 2)) (toInt (Syscall env.createVCPU).1) n 0
      ⟨setupTrace env 2 2 kvm, w⟩
      (by
        intro j hj
        have : ¬ (0 + j = n) := by omega
        simp only [this, if_false])
    rw [run, run, hrun]
    refine hrun1.trans ?_
    exact congrArg₂ (fun (t : List Op) (o : Writer) => Result.mk
      (.panicked (.error (some "failed to run cpu")))
      (t ++ [.runVCPU (toInt (Syscall env.createVCPU).1), .unlockOSThread,
        .close (toInt (Syscall env.createVM).1), .close kvm]) o)
      (congrArg Host.trace hd) (congrArg Host.com1Out hd)

/-- Witness of C9: on the failing host the second resume fails. -/
theorem run_aborts_on_resume_failure_witness :
    (run linuxHeader failingEnv 2 []).outcome = .panicked (.error (some "failed to run cpu")) ∧
      resumeCount (run linuxHeader failingEnv 2 []).trace = 1 + 1 :=
  ⟨(run_aborts_on_resume_failure linuxHeader failingEnv 2 1 [] workingEnv_setupOk (by decide)
      (by decide) (by decide)).2.1,
    (run_aborts_on_resume_failure linuxHeader failingEnv 2 1 [] workingEnv_setupOk (by decide)
      (by decide) (by decide)).2.2.1⟩

/-- C10. Exit dispatch: on a host whose setup succeeds, if the first `n`
resume results are successful non-Halt exits and the next one is a successful
Halt exit, then when `run` returns the writer holds what it held before followed
by the writes of `handlePio` for exactly those of the `n` exits whose reason is
`ExitReasonIO`, in exit order; the exits of any other reason add nothing, and
each of the `n` exits is followed by another resume (`n + 1` resumes in all):
the trace is the setup, then per exit the resume and, for an I/O exit only, the
call of `handlePio`, then the resume that observes the Halt, the log line and
the deferred calls. -/
theorem run_dispatches_exits (c : KvmHeader) (env : Env) (fuel n : Nat) (w : Writer)
    (hs : env.setupOk c)
    (hpre : ∀ i, i < n → (Syscall (env.resume (vcpuSetup env 2 2) i).raw).2 = 0 ∧
      (env.resume (vcpuSetup env 2 2) i).run.exit_reason ≠ ExitReasonHLT)
    (hhalt : (Syscall (env.resume (vcpuSetup env 2 2) n).raw).2 = 0 ∧
      (env.resume (vcpuSetup env 2 2) n).run.exit_reason = ExitReasonHLT)
    (hf : n + 1 ≤ fuel) :
    (run c env fuel w).outcome = .returned ∧
    (run c env fuel w).com1Out = w ++
      ((List.range n).filter (fun i =>
          decide ((env.resume (vcpuSetup env 2 2) i).run.exit_reason = ExitReasonIO))).flatMap
        (fun i => handlePio c (env.resume (vcpuSetup env 2 2) i).run.io
          ((env.resume (vcpuSetup env 2 2) i).run.load64
            (env.resume (vcpuSetup env 2 2) i).run.io.dataOffset) []) ∧
    resumeCount (run c env fuel w).trace = n + 1 ∧
    (∃ kvm vm vcpu, (run c env fuel w).trace =
      setupTrace env 2 2 kvm ++
      (List.range n).flatMap (fun i => .runVCPU vcpu ::
        if (env.resume (vcpuSetup env 2 2) i).run.exit_reason = ExitReasonIO then
          [.handlePio (env.resume (vcpuSetup env 2 2) i).run.io
            ((env.resume (vcpuSetup env 2 2) i).run.load64
              (env.resume (vcpuSetup env 2 2) i).run.io.dataOffset)] else []) ++
      [.runVCPU vcpu, .println "exit: HLT", .unlockOSThread, .close vm, .close kvm]) := by
  obtain ⟨kvm, hk⟩ := hs.1
  rw [run, runWith_halt_at 2 2 c env fuel n w kvm hk hs hpre hhalt hf]
  have hc := dispatchMany_resumeCount c (env.resume (vcpuSetup env 2 2))
    (toInt (Syscall env.createVCPU).1) n 0 ⟨setupTrace env 2 2 kvm, w⟩
  rw [resumeCount_setupTrace, Nat.zero_add] at hc
  refine ⟨rfl, ?_, ?_, ?_⟩
  · simp only [dispatchMany_com1Out, Nat.zero_add]
    rw [pioWrites_filter]
  · rw [resumeCount_append, hc]
    simp [resumeCount]
  · refine ⟨kvm, toInt (Syscall env.createVM).1, toInt (Syscall env.createVCPU).1, ?_⟩
    simp only [dispatchMany_trace, Nat.zero_add]

/-- Witness of C10: on the scripted host the OUT of 0x41 is written, the MMIO
exit is skipped and the Halt ends the run. -/
theorem run_dispatches_exits_witness :
    (run linuxHeader scriptEnv 3 []).com1Out = [[0x41]] :=
  ((run_dispatches_exits linuxHeader scriptEnv 3 2 [] workingEnv_setupOk (by decide) (by decide)
      (by decide)).2.1).trans (by decide)

/-! ## Shape of the trace of `run` -/

theorem deferred_outcome (r : Result) (op : Op) : (r.deferred op).outcome = r.outcome := by
  unfold Result.deferred
  split <;> simp_all

theorem deferred_trace (r : Result) (op : Op) :
    (r.deferred op).trace = r.trace ++ (if r.outcome = .running then [] else [op]) := by
  unfold Result.deferred
  split
  · rename_i h; simp [h]
  · rename_i h
    have : r.outcome ≠ .running := fun e => h e
    simp [this]

theorem deferred_com1Out (r : Result) (op : Op) : (r.deferred op).com1Out = r.com1Out := by
  unfold Result.deferred
  split <;> simp_all

theorem dispatch_trace (c : KvmHeader) (vcpu : Int) (r : ResumeResult) (h : Host) :
    ∃ ops, (dispatch c vcpu r h).trace = h.trace ++ ops ∧
      ∀ op ∈ ops, op ≠ .lockOSThread ∧ op ≠ .unlockOSThread := by
  unfold dispatch
  split
  · exact ⟨_, rfl, by simp⟩
  · exact ⟨_, rfl, by simp⟩

/-- The loop only appends to the trace, never locks or unlocks the thread,
and never panics with a string. -/
theorem execLoop_trace (c : KvmHeader) (resume : Nat → ResumeResult) (vcpu : Int) :
    ∀ (fuel i : Nat) (h : Host), ∃ ops,
      (execLoop c resume vcpu fuel i h).trace = h.trace ++ ops ∧
      (∀ op ∈ ops, op ≠ .lockOSThread ∧ op ≠ .unlockOSThread) ∧
      (∀ m, (execLoop c resume vcpu fuel i h).outcome ≠ .panicked (.str m)) := by
  intro fuel
  induction fuel with
  | zero => intro i h; exact ⟨[], by simp [execLoop], by simp, by simp [execLoop]⟩
  | succ fuel ih =>
    intro i h
    by_cases he : (Syscall (resume i).raw).2 = 0
    · by_cases hr : (resume i).run.exit_reason = ExitReasonHLT
      · rw [execLoop_step_hlt c resume vcpu fuel i h he hr]
        exact ⟨_, rfl, by simp, by simp⟩
      · rw [execLoop_step_ok c resume vcpu fuel i h he hr]
        obtain ⟨o1, h1, n1⟩ := dispatch_trace c vcpu (resume i) h
        obtain ⟨o2, h2, n2, p2⟩ := ih (i + 1) (dispatch c vcpu (resume i) h)
        refine ⟨o1 ++ o2, ?_, ?_, p2⟩
        · rw [h2, h1, List.append_assoc]
        · intro op hop
          rcases List.mem_append.mp hop with hm | hm
          · exact n1 op hm
          · exact n2 op hm
    · rw [execLoop_step_fail c resume vcpu fuel i h he]
      exact ⟨_, rfl, by simp, by simp⟩

theorem pinnedFrom_true_of_noLock (p : Op → Bool) :
    ∀ (ops tail : List Op), (∀ op ∈ ops, op ≠ .lockOSThread ∧ op ≠ .unlockOSThread) →
      pinnedFrom p true (ops ++ tail) = pinnedFrom p true tail := by
  intro ops
  induction ops with
  | nil => intro tail _; rfl
  | cons x t ih =>
    intro tail hall
    have hx := hall x (List.mem_cons_self _ _)
    have ht := ih tail (fun op hop => hall op (List.mem_cons_of_mem _ hop))
    cases x <;> simp_all [pinnedFrom]

theorem pinnedFrom_skip (p : Op → Bool) (b : Bool) :
    ∀ (l : List Op), (∀ op ∈ l, p op = false) → pinnedFrom p b l = true := by
  intro l
  induction l generalizing b with
  | nil => intro _; rfl
  | cons x t ih =>
    intro hall
    have hx := hall x (List.mem_cons_self _ _)
    have ht := fun b => ih b (fun op hop => hall op (List.mem_cons_of_mem _ hop))
    cases x <;> simp only [pinnedFrom, ht, hx, Bool.not_false, Bool.true_or, Bool.and_self]

theorem pinned_loop (c : KvmHeader) (resume : Nat → ResumeResult) (vcpu : Int) (fuel : Nat)
    (t : List Op) (w : Writer) (a b : Op)
    (ht : ∀ tail, pinnedFrom Op.isResume false (t ++ tail) = pinnedFrom Op.isResume true tail)
    (ha : Op.isResume a = false) (hb : Op.isResume b = false) :
    pinned Op.isResume ((((execLoop c resume vcpu fuel 0 ⟨t, w⟩).deferred .unlockOSThread).deferred
      a).deferred b).trace = true := by
  obtain ⟨ops, htr, hno, _⟩ := execLoop_trace c resume vcpu fuel 0 ⟨t, w⟩
  simp only [deferred_trace, deferred_outcome, htr, pinned, List.append_assoc]
  rw [ht, pinnedFrom_true_of_noLock _ _ _ hno]
  apply pinnedFrom_skip
  intro op hop
  by_cases hrun : (execLoop c resume vcpu fuel 0 ⟨t, w⟩).outcome = .running
  · simp [hrun] at hop
  · simp only [hrun, if_false, List.cons_append, List.nil_append, List.mem_cons,
      List.mem_singleton, List.not_mem_nil, or_false] at hop
    rcases hop with rfl | rfl | rfl
    · rfl
    · exact ha
    · exact hb

/-- C7, amended. In every trace of `run`, whatever the host answers and
however long the loop is observed, every resume call is issued after
`runtime.LockOSThread` and before `runtime.UnlockOSThread`. -/
theorem run_resumes_pinned (c : KvmHeader) (env : Env) (fuel : Nat) (w : Writer) :
    pinned Op.isResume (run c env fuel w).trace = true := by
  simp only [run, runWith, runKvm, runVM, Host.log, Host.panic]
  repeat' split
  all_goals try (simp [Result.deferred, pinned, pinnedFrom, Op.isResume]; done)
  apply pinned_loop
  · intro tail
    simp [pinnedFrom, Op.isResume]
  · rfl
  · rfl

theorem run_trace_setupOk (c : KvmHeader) (env : Env) (fuel : Nat) (w : Writer) (kvm : Int)
    (hk : env.openKvm = .ok kvm) (hs : env.setupOk c) :
    ∃ rest, (run c env fuel w).trace = setupTrace env 2 2 kvm ++ rest := by
  obtain ⟨ops, htr, _, _⟩ := execLoop_trace c (env.resume (vcpuSetup env 2 2))
    (toInt (Syscall env.createVCPU).1) fuel 0 ⟨setupTrace env 2 2 kvm, w⟩
  rw [run, runWith_setupOk 2 2 c env fuel w kvm hk hs]
  simp only [deferred_trace, deferred_outcome, htr, List.append_assoc]
  exact ⟨_, rfl⟩

/-- C7 as stated fails: on the working host the vCPU is created, its run
structure mapped and its registers read and written before
`runtime.LockOSThread` is called, so these operations lie outside the pinned
span. -/
theorem run_unpinned_setup_counterexample :
    pinned Op.onVCPU (run linuxHeader workingEnv 3 []).trace = false ∧
    (run linuxHeader workingEnv 3 []).trace.take 12 =
      [.openKvm, .getApiVersion 3, .createVM 3, .mmap (-1) 0x1000,
       .setUserMemoryRegion 4 ⟨0, 0x1000, 0x1000⟩, .createVCPU 4, .getVCPUMMapSize 3,
       .mmap 5 12288, .getSRegs 5, .setSRegs 5 ⟨0, 0⟩, .setRegs 5 ⟨2, 2, 0, 0x1000, 2⟩,
       .lockOSThread] := by
  obtain ⟨rest, h⟩ := run_trace_setupOk linuxHeader workingEnv 3 [] 3 rfl workingEnv_setupOk
  have e1 : toInt (Syscall workingEnv.createVM).1 = 4 := by decide
  have e2 : toInt (Syscall workingEnv.createVCPU).1 = 5 := by decide
  have e3 : toInt (Syscall workingEnv.vcpuMMapSize).1 = 12288 := by decide
  rw [h]
  simp only [setupTrace, e1, e2, e3, vcpuSetup, Regs.zero]
  constructor
  · simp [pinned, pinnedFrom, Op.onVCPU]
  · simp

theorem loop_deferred_facts (c : KvmHeader) (resume : Nat → ResumeResult) (vcpu : Int)
    (fuel : Nat) (h : Host) (a b d : Op) :
    (∀ m, ((((execLoop c resume vcpu fuel 0 h).deferred a).deferred b).deferred d).outcome ≠
      .panicked (.str m)) ∧
    (∀ op ∈ h.trace,
      op ∈ ((((execLoop c resume vcpu fuel 0 h).deferred a).deferred b).deferred d).trace) := by
  obtain ⟨ops, htr, _, hout⟩ := execLoop_trace c resume vcpu fuel 0 h
  simp only [deferred_outcome, deferred_trace, htr]
  refine ⟨hout, ?_⟩
  intro op hop
  simp [hop]

/-- C6. Version gate: `validateVersion` returns an error exactly when the
query failed or the reported version is not 12 (the incompatible-version error
when the query succeeded); and when it returns an error `run` panics with it
having opened the device and queried the version only: the deferred close
follows, no VM is created and nothing later is issued. -/
theorem validateVersion_gates_run (c : KvmHeader) (env : Env) (fuel : Nat) (w : Writer)
    (kvm : Int) (err : String) (hk : env.openKvm = .ok kvm)
    (hv : validateVersion (Syscall env.apiVersion) = some err) :
    (∀ sys : Nat × Nat, (validateVersion sys ≠ none ↔ (sys.2 ≠ 0 ∨ sys.1 ≠ 12)) ∧
      (sys.2 = 0 → sys.1 ≠ 12 → validateVersion sys = some "Incompatible KVM version")) ∧
    run c env fuel w =
      ⟨.panicked (.error (some err)), [.openKvm, .getApiVersion kvm, .close kvm], w⟩ ∧
    (∀ fd, Op.createVM fd ∉ (run c env fuel w).trace) := by
  have hrun : run c env fuel w =
      ⟨.panicked (.error (some err)), [.openKvm, .getApiVersion kvm, .close kvm], w⟩ := by
    simp only [run, runWith, hk, runKvm, hv, Host.log, Host.panic]
    rfl
  refine ⟨?_, hrun, ?_⟩
  · intro sys
    by_cases h2 : sys.2 = 0 <;> by_cases h1 : sys.1 = 12 <;> simp [validateVersion, h1, h2]
  · intro fd
    rw [hrun]
    simp

/-- Witness of C6: a host reporting API version 11. -/
theorem validateVersion_gates_run_witness :
    run linuxHeader oldKvmEnv 3 [] =
      ⟨.panicked (.error (some "Incompatible KVM version")),
        [.openKvm, .getApiVersion 3, .close 3], []⟩ :=
  (validateVersion_gates_run linuxHeader oldKvmEnv 3 [] 3 "Incompatible KVM version" rfl
    (by decide)).2.1

/-- C8. Startup guard: when `run` reaches the size query and
`getVCPUMMapSize` reports `s`, then if `s` is below `sizeof(struct kvm_run)`
`run` panics with "MMap unexpectedly small" having issued only the operations
up to the size query (the deferred closes follow): the run structure is not
mapped, no register is read or written and no resume is attempted; and if `s`
is at least that size the guard does not panic and the run structure mapping
of `s` bytes is requested. -/
theorem mmapSize_guard (c : KvmHeader) (env : Env) (fuel : Nat) (w : Writer) (kvm : Int)
    (s : Int) (hr : env.reachesGuard kvm)
    (hsz : getVCPUMMapSize (Syscall env.vcpuMMapSize) = (s, none)) :
    (s < (c.sizeof_struct_kvm_run : Int) →
      run c env fuel w =
        ⟨.panicked (.str "MMap unexpectedly small"),
          [.openKvm, .getApiVersion kvm, .createVM kvm, .mmap (-1) 0x1000,
           .setUserMemoryRegion (toInt (Syscall env.createVM).1) ⟨0, 0x1000, 0x1000⟩,
           .createVCPU (toInt (Syscall env.createVM).1), .getVCPUMMapSize kvm,
           .close (toInt (Syscall env.createVM).1), .close kvm], w⟩) ∧
    (¬ s < (c.sizeof_struct_kvm_run : Int) →
      (run c env fuel w).outcome ≠ .panicked (.str "MMap unexpectedly small") ∧
      Op.mmap (toInt (Syscall env.createVCPU).1) s ∈ (run c env fuel w).trace) := by
  obtain ⟨h1, h2, h3, h4, h5, h6⟩ := hr
  constructor
  · intro hlt
    simp only [run, runWith, h1, runKvm, validateVersion, h2, createVM, h3, runVM, h4,
      loadStep_code, h5, createVCPU, h6, hsz, hlt, Host.log, Host.panic, ne_eq,
      not_true_eq_false, if_false, if_true]
    rfl
  · intro hge
    simp only [run, runWith, h1, runKvm, validateVersion, h2, createVM, h3, runVM, h4,
      loadStep_code, h5, createVCPU, h6, hsz, hge, Host.log, Host.panic, ne_eq,
      not_true_eq_false, if_false]
    repeat' split
    all_goals try (simp [Result.deferred]; done)
    exact ⟨(loop_deferred_facts _ _ _ _ _ _ _ _).1 _,
      (loop_deferred_facts _ _ _ _ _ _ _ _).2 _ (by simp)⟩

/-- Witness of C8: a one-page mapping against a two-page run structure. -/
theorem mmapSize_guard_witness :
    (run bigHeader smallMapEnv 3 []).outcome = .panicked (.str "MMap unexpectedly small") :=
  congrArg Result.outcome
    ((mmapSize_guard bigHeader smallMapEnv 3 [] 3 4096
      ⟨rfl, by decide, by decide, rfl, by decide, by decide⟩ (by decide)).1 (by decide))

/-- C5. Load-failure guard, on the program and the buffer `run` hands to its
load step (the 12-byte `code` and the 0x1000-byte mapping): a zero-length
program fails the load step for every buffer, and so does every program on a
zero-length buffer; the program of `run` is neither zero-length nor longer
than its buffer, its load step succeeds, and the buffer then holds the entire
program verbatim from offset 0 with the rest of the buffer untouched, so `run`
never panics with the load failure; and for every program no longer than its
buffer, a load step that succeeds leaves the entire program verbatim from
offset 0, never a prefix of it. -/
theorem loadStep_holds_whole_program :
    (∀ mem : List Nat, loadStep mem [] = none) ∧
    (∀ prog : List Nat, loadStep [] prog = none) ∧
    (code ≠ [] ∧ code.length ≤ (List.replicate 0x1000 0).length) ∧
    (∃ m, loadStep (List.replicate 0x1000 0) code = some m ∧
      m.take code.length = code ∧
      m.drop code.length = List.replicate (0x1000 - code.length) 0 ∧
      m.length = 0x1000) ∧
    (∀ (c : KvmHeader) (env : Env) (fuel : Nat) (w : Writer),
      (run c env fuel w).outcome ≠ .panicked (.str "failed to copy code to RAM")) ∧
    (∀ mem prog m : List Nat, prog.length ≤ mem.length → loadStep mem prog = some m →
      m.length = mem.length ∧ m.take prog.length = prog ∧
      m.drop prog.length = mem.drop prog.length) := by
  have hfit : ∀ mem prog : List Nat, prog.length ≤ mem.length →
      (goCopy mem prog).1 = prog ++ mem.drop prog.length := by
    intro mem prog hle
    have hmin : min mem.length prog.length = prog.length := by omega
    simp only [goCopy, hmin, List.take_length]
  have hlen : code.length ≤ (List.replicate 0x1000 0).length := by
    rw [code_length, List.length_replicate]; decide
  refine ⟨?_, ?_, ⟨by decide, hlen⟩, ?_, ?_, ?_⟩
  · intro mem
    simp [loadStep, goCopy]
  · intro prog
    simp [loadStep, goCopy]
  · refine ⟨loadedMem, loadStep_code, ?_, ?_, ?_⟩
    · rw [loadedMem, hfit _ _ hlen, List.take_left]
    · rw [loadedMem, hfit _ _ hlen, List.drop_left, List.drop_replicate]
    · exact loadedMem_length
  · intro c env fuel w
    simp only [run, runWith, runKvm, runVM, Host.log, Host.panic, loadStep_code]
    repeat' split
    all_goals try (simp [Result.deferred]; done)
    exact (loop_deferred_facts _ _ _ _ _ _ _ _).1 _
  · intro mem prog m hle hm
    simp only [loadStep] at hm
    split at hm
    · cases hm
    · cases hm
      rw [hfit mem prog hle]
      refine ⟨?_, List.take_left _ _, List.drop_left _ _⟩
      simp only [List.length_append, List.length_drop]
      omega

/-- Witness of C5: a one-byte program in a two-byte buffer is held entire. -/
theorem loadStep_holds_whole_program_witness :
    loadStep [0, 0] [7] = some [7, 0] ∧ [7, 0].take [7].length = [7] :=
  ⟨by decide,
    (loadStep_holds_whole_program.2.2.2.2.2 [0, 0] [7] [7, 0] (by decide) (by decide)).2.1⟩

end KvmExample
